import Mathlib

/-!
Shallow embedding of `src/lib.rs` of the `tui-textarea` crate, and proofs of the
specification's claims about it.

Modelling conventions.  A stored line is a `List Char` of Unicode scalar values;
the Rust code addresses lines character-wise through `char_indices().nth(col)`,
which is `some` exactly when `col` is below the character count and returns the
byte index of character `col`, so byte-level insertion and removal at those
indices are `take`/`drop` at character positions.  Places where the Rust code
works with raw byte lengths (`String::len`) are noted at each definition, and
`byteLen`/`byteOffset` below recover the byte view where a claim needs it.
`tui::style::Style` and `tui::widgets::Block` come from the external `tui`
crate; they are opaque pass-through render state that no operation inspects, so
they are modelled by `Unit`.  Rust's `usize` subtraction panics on underflow in
debug builds; the underflow and index-out-of-bounds obligations of each
operation are collected in `SafeSpec` below.
-/

/-- Embeds `enum Key` (src/lib.rs lines 5-19). -/
inductive Key where
  | Char (c : Char)
  | Backspace
  | Enter
  | Left
  | Right
  | Up
  | Down
  | Tab
  | Delete
  | Home
  | End
  | Null
deriving DecidableEq

/-- Embeds `struct Input` (src/lib.rs lines 21-25): a normalized key plus a ctrl
flag.  The `From<crossterm::event::…>` conversions (lines 36-66) normalize
external platform events and are not needed by any claim. -/
structure Input where
  key : Key
  ctrl : Bool
deriving DecidableEq

/-- Embeds `struct TextArea` (src/lib.rs lines 68-74).  The Rust cursor tuple is
`(row, col)`, accessed as `cursor.0` / `cursor.1`; here it is `cursor.1` /
`cursor.2` (Lean products are 1-based). -/
structure TextArea where
  lines : List (List Char)
  block : Option Unit
  style : Unit
  cursor : Nat × Nat
  tab : List Char
deriving DecidableEq

/-- Embeds `impl Default for TextArea` (src/lib.rs lines 76-86): one
sentinel-only line, cursor at the origin, a four-space tab string. -/
def TextArea.default : TextArea :=
  { lines := [[' ']]
    block := none
    style := ()
    cursor := (0, 0)
    tab := [' ', ' ', ' ', ' '] }

/-- The line at row `r`.  The Rust code indexes `self.lines[row]` directly; the
out-of-bounds panic obligation is recorded in `SafeSpec`, and under the
invariant every such index is in range, where `getD` agrees with the Rust
index. -/
def lineAt (ls : List (List Char)) (r : Nat) : List Char := ls.getD r []

/-- Embeds `TextArea::insert_char` (src/lib.rs lines 148-155): when the cursor
column addresses a character of the current line, insert `c` there and advance
the column. -/
def TextArea.insert_char (ta : TextArea) (c : Char) : TextArea :=
  let row := ta.cursor.1
  let col := ta.cursor.2
  let line := lineAt ta.lines row
  if col < line.length then
    { ta with
      lines := ta.lines.set row (line.take col ++ [c] ++ line.drop col)
      cursor := (row, col + 1) }
  else ta

/-- The `debug_assert` guard of `TextArea::insert_str` (src/lib.rs lines
160-164), exactly as written: it scans `line` — the CURRENT LINE, not the
argument `s` — for a newline character (`line.char_indices().find(|(_, c)| *c
== '\n')` must be `None`), although its message reads "string given to
insert_str must not contain newline".  Returns `true` when the assertion
passes. -/
def insert_str_guard (ta : TextArea) (_s : List Char) : Bool :=
  ((lineAt ta.lines ta.cursor.1).find? (fun c => c = '\n')).isNone

/-- Embeds the state transformation of `TextArea::insert_str` (src/lib.rs lines
157-169); its debug assertion is modelled separately by `insert_str_guard`.
When the cursor column addresses a character, the characters of `s` are
inserted there and the column advances by their count. -/
def TextArea.insert_str (ta : TextArea) (s : List Char) : TextArea :=
  let row := ta.cursor.1
  let col := ta.cursor.2
  let line := lineAt ta.lines row
  if col < line.length then
    { ta with
      lines := ta.lines.set row (line.take col ++ s ++ line.drop col)
      cursor := (row, col + s.length) }
  else ta

/-- Embeds `TextArea::insert_tab` (src/lib.rs lines 171-176).  Rust computes
with the BYTE length of the tab string (`self.tab.len()`) and byte-slices
`&self.tab[..len]`; the `tab` setter (lines 307-315) asserts that the tab
string consists only of spaces and the default is four spaces, so every tab
string a `TextArea` can hold is one byte per character, where the byte length
is the character count and the byte slice is `take`. -/
def TextArea.insert_tab (ta : TextArea) : TextArea :=
  if ta.tab.length ≠ 0 then
    let len := ta.tab.length - ta.cursor.2 % ta.tab.length
    ta.insert_str (ta.tab.take len)
  else ta

/-- Embeds `TextArea::insert_newline` (src/lib.rs lines 178-191).  The split
index is character position `col` when in range; the `unwrap_or(line.len() -
1)` fallback is the byte index one before the end, which addresses the final
character exactly when that character is one byte wide (the sentinel space,
under the invariant), i.e. character position `line.length - 1`.  The tail
from the split becomes a new line inserted below; the head is truncated and
given a fresh sentinel; the cursor moves to the start of the new line. -/
def TextArea.insert_newline (ta : TextArea) : TextArea :=
  let row := ta.cursor.1
  let col := ta.cursor.2
  let line := lineAt ta.lines row
  let idx := if col < line.length then col else line.length - 1
  { ta with
    lines := List.insertIdx (row + 1) (line.drop idx)
      (ta.lines.set row (line.take idx ++ [' ']))
    cursor := (row + 1, 0) }

/-- Embeds `TextArea::delete_char` (src/lib.rs lines 193-211), backspace
semantics.  At column 0 of a row below the first, the row is removed
(`self.lines.remove(row)`), the previous line — indexed in the SHRUNK list —
drops its final character (`pop`, the sentinel) and receives the removed line,
and the cursor column becomes the merged character count minus one.  At a
positive column, `char_indices().nth(col - 1)` addresses character `col - 1`
when below the character count, and that character is removed. -/
def TextArea.delete_char (ta : TextArea) : TextArea :=
  let row := ta.cursor.1
  let col := ta.cursor.2
  if col = 0 then
    if row > 0 then
      let line := lineAt ta.lines row
      let rest := ta.lines.eraseIdx row
      let merged := (lineAt rest (row - 1)).dropLast ++ line
      { ta with
        lines := rest.set (row - 1) merged
        cursor := (row - 1, merged.length - 1) }
    else ta
  else
    let line := lineAt ta.lines row
    if col - 1 < line.length then
      { ta with
        lines := ta.lines.set row (line.take (col - 1) ++ line.drop col)
        cursor := (row, col - 1) }
    else ta

/-- Embeds `TextArea::cursor_forward` (src/lib.rs lines 213-222). -/
def TextArea.cursor_forward (ta : TextArea) : TextArea :=
  let r := ta.cursor.1
  let c := ta.cursor.2
  if c + 1 ≥ (lineAt ta.lines r).length then
    if r + 1 < ta.lines.length then { ta with cursor := (r + 1, 0) } else ta
  else { ta with cursor := (r, c + 1) }

/-- Embeds `TextArea::cursor_back` (src/lib.rs lines 224-233). -/
def TextArea.cursor_back (ta : TextArea) : TextArea :=
  let r := ta.cursor.1
  let c := ta.cursor.2
  if c = 0 then
    if r > 0 then { ta with cursor := (r - 1, (lineAt ta.lines (r - 1)).length - 1) }
    else ta
  else { ta with cursor := (r, c - 1) }

/-- Embeds `TextArea::cursor_down` (src/lib.rs lines 235-245). -/
def TextArea.cursor_down (ta : TextArea) : TextArea :=
  let r := ta.cursor.1
  let c := ta.cursor.2
  if r + 1 ≥ ta.lines.length then ta
  else
    let len := (lineAt ta.lines (r + 1)).length
    if len ≤ c then { ta with cursor := (r + 1, len - 1) }
    else { ta with cursor := (r + 1, c) }

/-- Embeds `TextArea::cursor_up` (src/lib.rs lines 247-257). -/
def TextArea.cursor_up (ta : TextArea) : TextArea :=
  let r := ta.cursor.1
  let c := ta.cursor.2
  if r = 0 then ta
  else
    let len := (lineAt ta.lines (r - 1)).length
    if len ≤ c then { ta with cursor := (r - 1, len - 1) }
    else { ta with cursor := (r - 1, c) }

/-- Embeds `TextArea::cursor_start` (src/lib.rs lines 259-261). -/
def TextArea.cursor_start (ta : TextArea) : TextArea :=
  { ta with cursor := (ta.cursor.1, 0) }

/-- Embeds `TextArea::cursor_end` (src/lib.rs lines 263-265): the column becomes
the character count of the current line minus one, i.e. the sentinel
position. -/
def TextArea.cursor_end (ta : TextArea) : TextArea :=
  { ta with cursor := (ta.cursor.1, (lineAt ta.lines ta.cursor.1).length - 1) }

/-- Embeds the dispatch of `TextArea::input` (src/lib.rs lines 89-117).  The
ctrl table's character match arms are written as an equality chain, which is
what a Rust `match` on `Key::Char('h')` … patterns compiles to.  The debug
assertions after the dispatch (lines 119-145) are the structural invariant,
modelled by `Inv` below. -/
def TextArea.input (ta : TextArea) (i : Input) : TextArea :=
  if i.ctrl then
    match i.key with
    | Key.Char c =>
      if c = 'h' then ta.delete_char
      else if c = 'm' then ta.insert_newline
      else if c = 'p' then ta.cursor_up
      else if c = 'f' then ta.cursor_forward
      else if c = 'n' then ta.cursor_down
      else if c = 'b' then ta.cursor_back
      else if c = 'a' then ta.cursor_start
      else if c = 'e' then ta.cursor_end
      else ta
    | _ => ta
  else
    match i.key with
    | Key.Char c => ta.insert_char c
    | Key.Backspace => ta.delete_char
    | Key.Tab => ta.insert_tab
    | Key.Enter => ta.insert_newline
    | Key.Up => ta.cursor_up
    | Key.Right => ta.cursor_forward
    | Key.Down => ta.cursor_down
    | Key.Left => ta.cursor_back
    | Key.Home => ta.cursor_start
    | Key.End => ta.cursor_end
    | _ => ta

/-- Embeds `TextArea::style` (src/lib.rs lines 292-295); named `setStyle`
because the field is already called `style`. -/
def TextArea.setStyle (ta : TextArea) (s : Unit) : TextArea := { ta with style := s }

/-- Embeds `TextArea::block` (src/lib.rs lines 297-300); named `setBlock`
because the field is already called `block`. -/
def TextArea.setBlock (ta : TextArea) (b : Unit) : TextArea := { ta with block := some b }

/-- Embeds `TextArea::remove_block` (src/lib.rs lines 302-305). -/
def TextArea.remove_block (ta : TextArea) : TextArea := { ta with block := none }

/-- Embeds `TextArea::tab` (src/lib.rs lines 307-315); named `setTab` because
the field is already called `tab`.  The `assert!` that the tab string consist
only of spaces is a hard, immediate panic, modelled as `none`. -/
def TextArea.setTab (ta : TextArea) (t : List Char) : Option TextArea :=
  if t.all (fun c => c = ' ') then some { ta with tab := t } else none

/-- Embeds the accessor `TextArea::lines` (src/lib.rs lines 317-319); named
`logicalLines` because the field is already called `lines`.  Rust slices off
each stored line's final BYTE (`&l[..l.len() - 1]`); when the final character
is the one-byte sentinel space — the invariant — this is `dropLast` on
characters.  The underflow and character-boundary obligations of the byte
slice are recorded in `SafeSpec`. -/
def TextArea.logicalLines (ta : TextArea) : List (List Char) :=
  ta.lines.map List.dropLast

/-- The UTF-8 byte length of a line as stored in a Rust `String`
(`String::len`). -/
def byteLen (l : List Char) : Nat := (l.map Char.utf8Size).sum

/-- The UTF-8 byte offset of character position `col` within a line: the byte
index produced by `line.char_indices().nth(col)`. -/
def byteOffset (l : List Char) (col : Nat) : Nat := byteLen (l.take col)

/-- The public operations of the buffer state machine: the edit operations, the
six cursor moves, and input dispatch. -/
inductive Op where
  | insChar (c : Char)
  | insStr (s : List Char)
  | insTab
  | insNewline
  | delChar
  | curForward
  | curBack
  | curUp
  | curDown
  | curStart
  | curEnd
  | inp (i : Input)

/-- Apply one public operation to a state. -/
def Op.apply (op : Op) (ta : TextArea) : TextArea :=
  match op with
  | .insChar c => ta.insert_char c
  | .insStr s => ta.insert_str s
  | .insTab => ta.insert_tab
  | .insNewline => ta.insert_newline
  | .delChar => ta.delete_char
  | .curForward => ta.cursor_forward
  | .curBack => ta.cursor_back
  | .curUp => ta.cursor_up
  | .curDown => ta.cursor_down
  | .curStart => ta.cursor_start
  | .curEnd => ta.cursor_end
  | .inp i => ta.input i

/-- Apply a sequence of public operations, left to right. -/
def applyAll (ops : List Op) (ta : TextArea) : TextArea :=
  ops.foldl (fun s op => op.apply s) ta

/-- The structural invariant asserted by `TextArea::input` after every dispatch
(src/lib.rs lines 119-145): the line list is non-empty, every line ends with
the sentinel space, the cursor row is below the line count, and the cursor
column is below the character count of its line. -/
def TextArea.Inv (ta : TextArea) : Prop :=
  ta.lines ≠ [] ∧
  (∀ l ∈ ta.lines, l.getLast? = some ' ') ∧
  ta.cursor.1 < ta.lines.length ∧
  ta.cursor.2 < (lineAt ta.lines ta.cursor.1).length

instance (ta : TextArea) : Decidable ta.Inv := by
  unfold TextArea.Inv; infer_instance

/-- The tab-string invariant enforced by the `tab` setter's `assert!`
(src/lib.rs lines 308-312) and satisfied by the default: the tab string
consists only of spaces. -/
def TabInv (ta : TextArea) : Prop := ∀ c ∈ ta.tab, c = ' '

instance (ta : TextArea) : Decidable (TabInv ta) := by
  unfold TabInv; infer_instance

/-! ## Basic lemmas about lines ending in the sentinel -/

theorem length_pos_of_sentinel {l : List Char} (h : l.getLast? = some ' ') :
    0 < l.length := by
  obtain ⟨ys, rfl⟩ := List.getLast?_eq_some_iff.mp h
  simp

theorem getLast?_drop_of_lt {l : List Char} {col : Nat} (hcol : col < l.length)
    (h : l.getLast? = some ' ') : (l.drop col).getLast? = some ' ' := by
  rw [List.getLast?_drop, if_neg (by omega)]
  exact h

theorem getLast?_insert_middle (l s : List Char) {col : Nat} (hcol : col < l.length)
    (h : l.getLast? = some ' ') :
    (l.take col ++ s ++ l.drop col).getLast? = some ' ' := by
  simp [List.getLast?_append, getLast?_drop_of_lt hcol h]

theorem getLast?_remove_middle (l : List Char) {col : Nat} (hcol : col < l.length)
    (h : l.getLast? = some ' ') :
    (l.take (col - 1) ++ l.drop col).getLast? = some ' ' := by
  simp [List.getLast?_append, getLast?_drop_of_lt hcol h]

theorem getLast?_merge (a : List Char) {b : List Char} (h : b.getLast? = some ' ') :
    (a.dropLast ++ b).getLast? = some ' ' := by
  simp [List.getLast?_append, h]

/-! ## Lemmas about `lineAt` -/

theorem lineAt_set_self {ls : List (List Char)} {r : Nat} (x : List Char)
    (h : r < ls.length) : lineAt (ls.set r x) r = x := by
  unfold lineAt
  rw [List.getD_eq_getElem?_getD, List.getElem?_set_self h]
  rfl

theorem lineAt_set_ne {ls : List (List Char)} {r r' : Nat} (x : List Char)
    (h : r ≠ r') : lineAt (ls.set r x) r' = lineAt ls r' := by
  unfold lineAt
  rw [List.getD_eq_getElem?_getD, List.getElem?_set_ne h, ← List.getD_eq_getElem?_getD]

theorem lineAt_mem {ls : List (List Char)} {r : Nat} (h : r < ls.length) :
    lineAt ls r ∈ ls := by
  unfold lineAt
  rw [List.getD_eq_getElem ls [] h]
  exact List.getElem_mem h

theorem lineAt_insertIdx_self {ls : List (List Char)} {n : Nat} (x : List Char)
    (h : n ≤ ls.length) : lineAt (List.insertIdx n x ls) n = x := by
  have hlen : n < (List.insertIdx n x ls).length := by
    rw [List.length_insertIdx n ls h]; omega
  unfold lineAt
  rw [List.getD_eq_getElem _ _ hlen]
  exact List.getElem_insertIdx_self ls x n h

theorem lineAt_eraseIdx_lt {ls : List (List Char)} {i j : Nat} (h : j < i) :
    lineAt (ls.eraseIdx i) j = lineAt ls j := by
  unfold lineAt
  rw [List.getD_eq_getElem?_getD, List.getElem?_eraseIdx, if_pos h,
    ← List.getD_eq_getElem?_getD]

/-! ## Preservation of the structural invariant by each operation -/

theorem insert_char_eq_insert_str (ta : TextArea) (c : Char) :
    ta.insert_char c = ta.insert_str [c] := rfl

theorem inv_insert_str {ta : TextArea} (s : List Char) (h : ta.Inv) :
    (ta.insert_str s).Inv := by
  obtain ⟨h1, h2, h3, h4⟩ := h
  have hsp := h2 _ (lineAt_mem h3)
  unfold TextArea.insert_str
  simp only [if_pos h4]
  refine ⟨?_, ?_, ?_, ?_⟩
  · simp only [← List.length_pos, List.length_set]
    omega
  · intro l hl
    rcases List.mem_or_eq_of_mem_set hl with hmem | rfl
    · exact h2 _ hmem
    · exact getLast?_insert_middle _ s h4 hsp
  · simpa using h3
  · simp only [lineAt_set_self _ h3, List.length_append, List.length_take,
      List.length_drop]
    omega

theorem inv_insert_char {ta : TextArea} (c : Char) (h : ta.Inv) :
    (ta.insert_char c).Inv := by
  rw [insert_char_eq_insert_str]
  exact inv_insert_str [c] h

theorem inv_insert_tab {ta : TextArea} (h : ta.Inv) : ta.insert_tab.Inv := by
  unfold TextArea.insert_tab
  split
  · exact inv_insert_str _ h
  · exact h

theorem inv_insert_newline {ta : TextArea} (h : ta.Inv) : ta.insert_newline.Inv := by
  obtain ⟨h1, h2, h3, h4⟩ := h
  have hsp := h2 _ (lineAt_mem h3)
  unfold TextArea.insert_newline
  simp only [if_pos h4]
  have hle : ta.cursor.1 + 1 ≤
      (ta.lines.set ta.cursor.1 ((lineAt ta.lines ta.cursor.1).take ta.cursor.2 ++ [' '])).length := by
    rw [List.length_set]; omega
  refine ⟨?_, ?_, ?_, ?_⟩
  · rw [← List.length_pos, List.length_insertIdx _ _ hle]
    omega
  · intro l hl
    rcases (List.mem_insertIdx hle).mp hl with rfl | hmem
    · exact getLast?_drop_of_lt h4 hsp
    · rcases List.mem_or_eq_of_mem_set hmem with hmem' | rfl
      · exact h2 _ hmem'
      · exact List.getLast?_concat _
  · dsimp only
    rw [List.length_insertIdx _ _ hle, List.length_set]
    omega
  · dsimp only
    rw [lineAt_insertIdx_self _ hle, List.length_drop]
    omega

theorem inv_delete_char {ta : TextArea} (h : ta.Inv) : ta.delete_char.Inv := by
  obtain ⟨h1, h2, h3, h4⟩ := h
  have hsp := h2 _ (lineAt_mem h3)
  have hpos : 0 < (lineAt ta.lines ta.cursor.1).length := length_pos_of_sentinel hsp
  unfold TextArea.delete_char
  by_cases hc : ta.cursor.2 = 0
  · by_cases hr : ta.cursor.1 > 0
    · simp only [if_pos hc, if_pos hr]
      have herase : (ta.lines.eraseIdx ta.cursor.1).length = ta.lines.length - 1 := by
        rw [List.length_eraseIdx, if_pos h3]
      refine ⟨?_, ?_, ?_, ?_⟩
      · dsimp only
        rw [← List.length_pos, List.length_set, herase]
        omega
      · intro l hl
        dsimp only at hl
        rcases List.mem_or_eq_of_mem_set hl with hmem | rfl
        · exact h2 _ (List.eraseIdx_subset _ _ hmem)
        · exact getLast?_merge _ hsp
      · dsimp only
        rw [List.length_set, herase]
        omega
      · dsimp only
        rw [lineAt_set_self _ (by rw [herase]; omega)]
        simp only [List.length_append]
        omega
    · simp only [if_pos hc, if_neg hr]
      exact ⟨h1, h2, h3, h4⟩
  · have hc1 : ta.cursor.2 - 1 < (lineAt ta.lines ta.cursor.1).length := by omega
    simp only [if_neg hc, if_pos hc1]
    refine ⟨?_, ?_, ?_, ?_⟩
    · dsimp only
      rw [← List.length_pos, List.length_set]
      omega
    · intro l hl
      dsimp only at hl
      rcases List.mem_or_eq_of_mem_set hl with hmem | rfl
      · exact h2 _ hmem
      · exact getLast?_remove_middle _ h4 hsp
    · dsimp only
      rw [List.length_set]
      exact h3
    · dsimp only
      rw [lineAt_set_self _ h3]
      simp only [List.length_append, List.length_take, List.length_drop]
      omega

theorem inv_cursor_forward {ta : TextArea} (h : ta.Inv) : ta.cursor_forward.Inv := by
  obtain ⟨h1, h2, h3, h4⟩ := h
  unfold TextArea.cursor_forward
  by_cases hge : ta.cursor.2 + 1 ≥ (lineAt ta.lines ta.cursor.1).length
  · by_cases hlt : ta.cursor.1 + 1 < ta.lines.length
    · simp only [if_pos hge, if_pos hlt]
      exact ⟨h1, h2, hlt, length_pos_of_sentinel (h2 _ (lineAt_mem hlt))⟩
    · simp only [if_pos hge, if_neg hlt]
      exact ⟨h1, h2, h3, h4⟩
  · simp only [if_neg hge]
    exact ⟨h1, h2, h3, by dsimp only; omega⟩

theorem inv_cursor_back {ta : TextArea} (h : ta.Inv) : ta.cursor_back.Inv := by
  obtain ⟨h1, h2, h3, h4⟩ := h
  unfold TextArea.cursor_back
  by_cases hc : ta.cursor.2 = 0
  · by_cases hr : ta.cursor.1 > 0
    · have hr1 : ta.cursor.1 - 1 < ta.lines.length := by omega
      simp only [if_pos hc, if_pos hr]
      refine ⟨h1, h2, hr1, ?_⟩
      have := length_pos_of_sentinel (h2 _ (lineAt_mem hr1))
      dsimp only
      omega
    · simp only [if_pos hc, if_neg hr]
      exact ⟨h1, h2, h3, h4⟩
  · simp only [if_neg hc]
    exact ⟨h1, h2, h3, by dsimp only; omega⟩

theorem inv_cursor_down {ta : TextArea} (h : ta.Inv) : ta.cursor_down.Inv := by
  obtain ⟨h1, h2, h3, h4⟩ := h
  unfold TextArea.cursor_down
  by_cases hge : ta.cursor.1 + 1 ≥ ta.lines.length
  · simp only [if_pos hge]
    exact ⟨h1, h2, h3, h4⟩
  · have hlt : ta.cursor.1 + 1 < ta.lines.length := by omega
    have hpos := length_pos_of_sentinel (h2 _ (lineAt_mem hlt))
    by_cases hle : (lineAt ta.lines (ta.cursor.1 + 1)).length ≤ ta.cursor.2
    · simp only [if_neg hge, if_pos hle]
      exact ⟨h1, h2, hlt, by dsimp only; omega⟩
    · simp only [if_neg hge, if_neg hle]
      exact ⟨h1, h2, hlt, by dsimp only; omega⟩

theorem inv_cursor_up {ta : TextArea} (h : ta.Inv) : ta.cursor_up.Inv := by
  obtain ⟨h1, h2, h3, h4⟩ := h
  unfold TextArea.cursor_up
  by_cases hz : ta.cursor.1 = 0
  · simp only [if_pos hz]
    exact ⟨h1, h2, h3, h4⟩
  · have hlt : ta.cursor.1 - 1 < ta.lines.length := by omega
    have hpos := length_pos_of_sentinel (h2 _ (lineAt_mem hlt))
    by_cases hle : (lineAt ta.lines (ta.cursor.1 - 1)).length ≤ ta.cursor.2
    · simp only [if_neg hz, if_pos hle]
      exact ⟨h1, h2, hlt, by dsimp only; omega⟩
    · simp only [if_neg hz, if_neg hle]
      exact ⟨h1, h2, hlt, by dsimp only; omega⟩

theorem inv_cursor_start {ta : TextArea} (h : ta.Inv) : ta.cursor_start.Inv := by
  obtain ⟨h1, h2, h3, h4⟩ := h
  exact ⟨h1, h2, h3, by
    dsimp only [TextArea.cursor_start]
    omega⟩

theorem inv_cursor_end {ta : TextArea} (h : ta.Inv) : ta.cursor_end.Inv := by
  obtain ⟨h1, h2, h3, h4⟩ := h
  have hpos := length_pos_of_sentinel (h2 _ (lineAt_mem h3))
  exact ⟨h1, h2, h3, by
    dsimp only [TextArea.cursor_end]
    omega⟩

theorem inv_input {ta : TextArea} (i : Input) (h : ta.Inv) : (ta.input i).Inv := by
  unfold TextArea.input
  by_cases hc : i.ctrl
  · rw [if_pos hc]
    cases i.key with
    | Char c =>
      dsimp only
      split_ifs <;>
        first
        | exact inv_delete_char h
        | exact inv_insert_newline h
        | exact inv_cursor_up h
        | exact inv_cursor_forward h
        | exact inv_cursor_down h
        | exact inv_cursor_back h
        | exact inv_cursor_start h
        | exact inv_cursor_end h
        | exact h
    | Backspace => exact h
    | Enter => exact h
    | Left => exact h
    | Right => exact h
    | Up => exact h
    | Down => exact h
    | Tab => exact h
    | Delete => exact h
    | Home => exact h
    | End => exact h
    | Null => exact h
  · rw [if_neg hc]
    cases i.key with
    | Char c => exact inv_insert_char c h
    | Backspace => exact inv_delete_char h
    | Enter => exact inv_insert_newline h
    | Left => exact inv_cursor_back h
    | Right => exact inv_cursor_forward h
    | Up => exact inv_cursor_up h
    | Down => exact inv_cursor_down h
    | Tab => exact inv_insert_tab h
    | Delete => exact h
    | Home => exact inv_cursor_start h
    | End => exact inv_cursor_end h
    | Null => exact h

theorem inv_apply {ta : TextArea} (op : Op) (h : ta.Inv) : (op.apply ta).Inv := by
  cases op with
  | insChar c => exact inv_insert_char c h
  | insStr s => exact inv_insert_str s h
  | insTab => exact inv_insert_tab h
  | insNewline => exact inv_insert_newline h
  | delChar => exact inv_delete_char h
  | curForward => exact inv_cursor_forward h
  | curBack => exact inv_cursor_back h
  | curUp => exact inv_cursor_up h
  | curDown => exact inv_cursor_down h
  | curStart => exact inv_cursor_start h
  | curEnd => exact inv_cursor_end h
  | inp i => exact inv_input i h

theorem inv_applyAll {ta : TextArea} (ops : List Op) (h : ta.Inv) :
    (applyAll ops ta).Inv := by
  induction ops generalizing ta with
  | nil => exact h
  | cons op ops ih => exact ih (inv_apply op h)

/-! ## Claim C1: invariant preservation over all operation sequences -/

/-- Claim C1: for every sequence of public operations (insertChar, insertText,
insertTab, insertNewline, deleteChar, the six cursor moves, and input dispatch)
applied to the initial state (one sentinel-only line, cursor (0,0)), the
resulting state satisfies the structural invariant: the line list is
non-empty, every line ends with the sentinel space character, the cursor row
is below the number of lines, and the cursor column is below the character
count of the line at the cursor row. -/
theorem C1_invariant_all_sequences (ops : List Op) :
    (applyAll ops TextArea.default).Inv :=
  inv_applyAll ops (by decide)

/-! ## Claims C2, C4: concrete edit scenarios -/

/-- The state with one logical line "ab" and cursor (0, 2): the stored line is
['a','b',' '] with the sentinel. -/
def stateAB : TextArea :=
  { TextArea.default with lines := [['a', 'b', ' ']], cursor := (0, 2) }

/-- Claim C2: starting from the single line "ab" with the cursor at (0,2),
insertNewline() and then deleteChar() yield a state where lines() returns
exactly ["ab"] and cursor() returns (0,2). -/
theorem C2_round_trip :
    (stateAB.insert_newline.delete_char).logicalLines = [['a', 'b']] ∧
    (stateAB.insert_newline.delete_char).cursor = (0, 2) := by
  decide

/-- The state of Scenario C: logical lines ["a", "b"] (stored with sentinels),
cursor (1, 0). -/
def stateC4 : TextArea :=
  { TextArea.default with lines := [['a', ' '], ['b', ' ']], cursor := (1, 0) }

/-- Claim C4 as stated is false at its own input: deleteChar() from
["a", "b"] at (1,0) merges the lines to "ab" but places the cursor at
column 2 — the merged stored line "ab " has three characters and the code sets
the column to that count minus one — not at column 1. -/
theorem C4_counterexample :
    ¬ (stateC4.delete_char.logicalLines = [['a', 'b']] ∧
      stateC4.delete_char.cursor = (0, 1)) := by
  decide

/-- Claim C4 amended: from the state with logical lines ["a", "b"] and cursor
(1,0), deleteChar() produces a state where lines() returns ["ab"] and cursor()
returns (0, 2). -/
theorem C4_amended_merge :
    stateC4.delete_char.logicalLines = [['a', 'b']] ∧
    stateC4.delete_char.cursor = (0, 2) := by
  decide

/-! ## Claim C3: the insertText precondition check -/

/-- Claim C3 is a code bug: the debug assertion of insert_str scans the CURRENT
LINE for a newline instead of the argument, contradicting its own message
"string given to insert_str must not contain newline".  Evaluated at the
failing input — the default state and the argument "\n" — the check passes
(returns true) even though the argument contains a line break. -/
theorem C3_guard_accepts_newline :
    insert_str_guard TextArea.default ['\n'] = true := by
  decide

/-! ## Claim C5: cursorEnd / cursorStart dispatch scenario -/

/-- The state of Scenario D: one logical line "abc" (stored with the sentinel),
cursor (0, 0). -/
def stateC5 : TextArea :=
  { TextArea.default with lines := [['a', 'b', 'c', ' ']], cursor := (0, 0) }

/-- The ctrl+e input of Scenario D. -/
def ctrlE : Input := { key := Key.Char 'e', ctrl := true }

/-- The ctrl+a input of Scenario D. -/
def ctrlA : Input := { key := Key.Char 'a', ctrl := true }

/-- Claim C5 as stated is false at its own input: dispatching ctrl+e
(cursorEnd) on "abc" from (0,0) sets the column to the stored line's character
count minus one, which is 3 (the sentinel position), not 2. -/
theorem C5_counterexample :
    ¬ (stateC5.input ctrlE).cursor = (0, 2) := by
  decide

/-- Claim C5 amended: dispatching ctrl+e (cursorEnd) yields cursor (0,3) — the
sentinel position, one past the last real character — and then dispatching
ctrl+a (cursorStart) yields cursor (0,0). -/
theorem C5_amended_end_start :
    ((stateC5.input ctrlE).cursor = (0, 3)) ∧
    (((stateC5.input ctrlE).input ctrlA).cursor = (0, 0)) := by
  decide

/-! ## Claim C6: the indentation stop computation of insertTab -/

/-- The behaviour claimed for insertTab at a state `ta`: with a non-empty
indentation string of length stopWidth, exactly
`stopWidth - (cursor.column % stopWidth)` space characters are inserted at the
cursor and the column advances by that count; with an empty indentation string
the state is unchanged. -/
def InsertTabSpec (ta : TextArea) : Prop :=
  (ta.tab.length ≠ 0 →
    ta.insert_tab.lines = ta.lines.set ta.cursor.1
      ((lineAt ta.lines ta.cursor.1).take ta.cursor.2 ++
        List.replicate (ta.tab.length - ta.cursor.2 % ta.tab.length) ' ' ++
        (lineAt ta.lines ta.cursor.1).drop ta.cursor.2) ∧
    ta.insert_tab.cursor =
      (ta.cursor.1, ta.cursor.2 + (ta.tab.length - ta.cursor.2 % ta.tab.length))) ∧
  (ta.tab.length = 0 → ta.insert_tab = ta)

/-- Claim C6: for every state satisfying the structural invariant whose
indentation string satisfies the tab setter's all-spaces invariant, insertTab()
inserts exactly `stopWidth - (cursor.column mod stopWidth)` spaces at the
cursor and advances the column by that count when the indentation string is
non-empty, and leaves the state unchanged when it is empty. -/
theorem C6_insert_tab (ta : TextArea) (h : ta.Inv) (ht : TabInv ta) :
    InsertTabSpec ta := by
  obtain ⟨h1, h2, h3, h4⟩ := h
  constructor
  · intro hne
    have htake : ta.tab.take (ta.tab.length - ta.cursor.2 % ta.tab.length) =
        List.replicate (ta.tab.length - ta.cursor.2 % ta.tab.length) ' ' := by
      rw [List.eq_replicate_of_mem (fun b hb => ht b (List.mem_of_mem_take hb)),
        List.length_take]
      congr 1
      omega
    simp only [TextArea.insert_tab, if_pos hne]
    rw [htake]
    simp only [TextArea.insert_str, if_pos h4]
    refine ⟨?_, ?_⟩
    · trivial
    · dsimp only
      rw [List.length_replicate]
  · intro h0
    have hnn : ¬ (ta.tab.length ≠ 0) := by omega
    simp only [TextArea.insert_tab, if_neg hnn]

/-- Witness for claim C6: the default state satisfies both hypotheses and the
insertTab specification. -/
theorem C6_insert_tab_witness :
    TextArea.default.Inv ∧ TabInv TextArea.default ∧ InsertTabSpec TextArea.default :=
  ⟨by decide, by decide, C6_insert_tab TextArea.default (by decide) (by decide)⟩

/-! ## Claim C7: character-count stepping over multi-byte characters -/

theorem byteLen_append (a b : List Char) : byteLen (a ++ b) = byteLen a + byteLen b := by
  simp [byteLen]

theorem byteOffset_succ {l : List Char} {n : Nat} {c : Char} (h : l[n]? = some c) :
    byteOffset l (n + 1) = byteOffset l n + c.utf8Size := by
  unfold byteOffset
  rw [List.take_succ, h, byteLen_append]
  simp [byteLen]

/-- The behaviour claimed for a character `c` at state `ta`: insertChar(c)
advances the column by exactly 1 (one character position, whatever the storage
width of `c`); when `c` is the character at the cursor and is not the line's
final character, cursorForward advances the column by exactly 1 while the
corresponding byte offset advances by the full UTF-8 width of `c`, never
landing inside its encoding; when the column is positive, cursorBack moves the
column back by exactly 1. -/
def MultibyteStepSpec (ta : TextArea) (c : Char) : Prop :=
  (ta.insert_char c).cursor.2 = ta.cursor.2 + 1 ∧
  ((lineAt ta.lines ta.cursor.1)[ta.cursor.2]? = some c →
    ta.cursor.2 + 1 < (lineAt ta.lines ta.cursor.1).length →
    ta.cursor_forward.cursor = (ta.cursor.1, ta.cursor.2 + 1) ∧
    byteOffset (lineAt ta.lines ta.cursor.1) (ta.cursor.2 + 1) =
      byteOffset (lineAt ta.lines ta.cursor.1) ta.cursor.2 + c.utf8Size) ∧
  (0 < ta.cursor.2 → ta.cursor_back.cursor = (ta.cursor.1, ta.cursor.2 - 1))

/-- Claim C7: for every state satisfying the invariant and every character
whose UTF-8 encoding is longer than one byte, insertChar advances the column
by exactly 1, and cursorForward / cursorBack step across the character in a
single step (the column changes by exactly 1, and the byte offset jumps by the
whole encoding, never landing inside it). -/
theorem C7_multibyte (ta : TextArea) (c : Char) (h : ta.Inv) (_hc : 1 < c.utf8Size) :
    MultibyteStepSpec ta c := by
  obtain ⟨h1, h2, h3, h4⟩ := h
  refine ⟨?_, ?_, ?_⟩
  · simp only [TextArea.insert_char, if_pos h4]
  · intro hcc hlt
    have hnge : ¬ (ta.cursor.2 + 1 ≥ (lineAt ta.lines ta.cursor.1).length) := by omega
    exact ⟨by simp only [TextArea.cursor_forward, if_neg hnge], byteOffset_succ hcc⟩
  · intro hpos
    have hnz : ¬ (ta.cursor.2 = 0) := by omega
    simp only [TextArea.cursor_back, if_neg hnz]

/-- A state whose line holds the two-byte character at the cursor: stored line
['x','é',' '], cursor (0, 1). -/
def stateMB : TextArea :=
  { TextArea.default with lines := [['x', 'é', ' ']], cursor := (0, 1) }

/-- Witness for claim C7: a state with the two-byte character at the cursor
satisfies both hypotheses and the multibyte stepping specification. -/
theorem C7_multibyte_witness :
    stateMB.Inv ∧ 1 < Char.utf8Size 'é' ∧ MultibyteStepSpec stateMB 'é' :=
  ⟨by decide, by decide, C7_multibyte stateMB 'é' (by decide) (by decide)⟩

/-! ## Claim C8: unrecognized input is a silent no-op -/

/-- The inputs the dispatcher does not recognize: the Null or Delete key
without ctrl, and any ctrl-modified key other than the eight bound control
characters. -/
def UnrecognizedInput (i : Input) : Prop :=
  (i.ctrl = false ∧ (i.key = Key.Null ∨ i.key = Key.Delete)) ∨
  (i.ctrl = true ∧ ∀ c : Char, i.key = Key.Char c →
    c ≠ 'h' ∧ c ≠ 'm' ∧ c ≠ 'p' ∧ c ≠ 'n' ∧ c ≠ 'f' ∧ c ≠ 'b' ∧ c ≠ 'a' ∧ c ≠ 'e')

/-- Claim C8: for every state, dispatching an input whose key is Null or
Delete without ctrl, or a ctrl-modified key other than the eight bound control
characters, leaves the line list and the cursor exactly unchanged. -/
theorem C8_unrecognized_no_op (ta : TextArea) (i : Input) (h : UnrecognizedInput i) :
    (ta.input i).lines = ta.lines ∧ (ta.input i).cursor = ta.cursor := by
  rcases h with ⟨hctrl, hkey⟩ | ⟨hctrl, hkey⟩
  · simp only [TextArea.input, hctrl, Bool.false_eq_true, if_false]
    rcases hkey with hk | hk <;> rw [hk] <;> exact ⟨rfl, rfl⟩
  · simp only [TextArea.input, hctrl, if_true]
    cases hkk : i.key with
    | Char c =>
      obtain ⟨n1, n2, n3, n4, n5, n6, n7, n8⟩ := hkey c hkk
      dsimp only
      rw [if_neg n1, if_neg n2, if_neg n3, if_neg n5, if_neg n4, if_neg n6,
        if_neg n7, if_neg n8]
      exact ⟨rfl, rfl⟩
    | Backspace => exact ⟨rfl, rfl⟩
    | Enter => exact ⟨rfl, rfl⟩
    | Left => exact ⟨rfl, rfl⟩
    | Right => exact ⟨rfl, rfl⟩
    | Up => exact ⟨rfl, rfl⟩
    | Down => exact ⟨rfl, rfl⟩
    | Tab => exact ⟨rfl, rfl⟩
    | Delete => exact ⟨rfl, rfl⟩
    | Home => exact ⟨rfl, rfl⟩
    | End => exact ⟨rfl, rfl⟩
    | Null => exact ⟨rfl, rfl⟩

/-- Witness for claim C8: the Null key without ctrl at the default state. -/
theorem C8_unrecognized_no_op_witness :
    UnrecognizedInput { key := Key.Null, ctrl := false } ∧
    (TextArea.default.input { key := Key.Null, ctrl := false }).lines =
      TextArea.default.lines ∧
    (TextArea.default.input { key := Key.Null, ctrl := false }).cursor =
      TextArea.default.cursor :=
  ⟨Or.inl ⟨rfl, Or.inl rfl⟩,
    C8_unrecognized_no_op TextArea.default _ (Or.inl ⟨rfl, Or.inl rfl⟩)⟩

/-! ## Claim C9: no out-of-bounds access, no underflowing subtraction -/

/-- The panic obligations of the public operations, collected over a state:
every `self.lines[..]` index the operations perform is in bounds; every
`chars().count() - 1` subtraction (in cursor_back, cursor_up, cursor_down,
cursor_end and delete_char) has a positive operand; and the `len() - 1` byte
subtractions (the insert_newline fallback and the `&l[..l.len() - 1]` slice of
the lines() accessor) act on lines of positive byte length whose final
character is one byte wide, so the byte before the end begins a whole
character — the sentinel. -/
def SafeSpec (ta : TextArea) : Prop :=
  ta.cursor.1 < ta.lines.length ∧
  0 < (lineAt ta.lines ta.cursor.1).length ∧
  (0 < ta.cursor.1 →
    ta.cursor.1 - 1 < ta.lines.length ∧
    0 < (lineAt ta.lines (ta.cursor.1 - 1)).length) ∧
  (ta.cursor.1 + 1 < ta.lines.length →
    0 < (lineAt ta.lines (ta.cursor.1 + 1)).length) ∧
  (ta.cursor.2 = 0 → 0 < ta.cursor.1 →
    ta.cursor.1 - 1 < (ta.lines.eraseIdx ta.cursor.1).length ∧
    0 < ((lineAt (ta.lines.eraseIdx ta.cursor.1) (ta.cursor.1 - 1)).dropLast ++
      lineAt ta.lines ta.cursor.1).length) ∧
  (∀ l ∈ ta.lines, 0 < byteLen l ∧ ∃ c, l.getLast? = some c ∧ c.utf8Size = 1)

/-- Claim C9: under the structural invariant, no public operation panics:
every line index accessed is in bounds, the character-count-minus-one
subtractions of cursorBack, cursorUp, cursorDown, cursorEnd and deleteChar
never underflow, and the byte-length-minus-one subtractions of insertNewline
and the lines() accessor never underflow (and slice at a character boundary),
because the sentinel guarantees every line has at least one character. -/
theorem C9_no_panic (ta : TextArea) (h : ta.Inv) : SafeSpec ta := by
  obtain ⟨h1, h2, h3, h4⟩ := h
  refine ⟨h3, length_pos_of_sentinel (h2 _ (lineAt_mem h3)), ?_, ?_, ?_, ?_⟩
  · intro hr
    have hlt : ta.cursor.1 - 1 < ta.lines.length := by omega
    exact ⟨hlt, length_pos_of_sentinel (h2 _ (lineAt_mem hlt))⟩
  · intro hlt
    exact length_pos_of_sentinel (h2 _ (lineAt_mem hlt))
  · intro _ hr
    have herase : (ta.lines.eraseIdx ta.cursor.1).length = ta.lines.length - 1 := by
      rw [List.length_eraseIdx, if_pos h3]
    have hpos := length_pos_of_sentinel (h2 _ (lineAt_mem h3))
    constructor
    · rw [herase]; omega
    · rw [List.length_append]; omega
  · intro l hl
    have hsp := h2 l hl
    refine ⟨?_, ' ', hsp, rfl⟩
    obtain ⟨ys, rfl⟩ := List.getLast?_eq_some_iff.mp hsp
    rw [byteLen_append]
    have hone : byteLen [' '] = 1 := rfl
    omega

/-- Witness for claim C9: the default state satisfies the invariant and the
safety obligations. -/
theorem C9_no_panic_witness : TextArea.default.Inv ∧ SafeSpec TextArea.default :=
  ⟨by decide, C9_no_panic TextArea.default (by decide)⟩

/-! ## Claim C10: the line-count effect of each operation -/

/-- The line-count effect claimed for each public operation at a state `ta`:
insertNewline adds exactly one line; deleteChar removes exactly one line
precisely when the cursor sits at column 0 of a positive row; every other
operation — insertChar, insertText, insertTab, the six cursor moves, and the
style/block/tab setters — leaves the line count unchanged. -/
def LineCountSpec (ta : TextArea) : Prop :=
  ta.insert_newline.lines.length = ta.lines.length + 1 ∧
  (ta.delete_char.lines.length + 1 = ta.lines.length ↔
    (ta.cursor.2 = 0 ∧ 0 < ta.cursor.1)) ∧
  (∀ c : Char, (ta.insert_char c).lines.length = ta.lines.length) ∧
  (∀ s : List Char, (ta.insert_str s).lines.length = ta.lines.length) ∧
  ta.insert_tab.lines.length = ta.lines.length ∧
  ta.cursor_forward.lines.length = ta.lines.length ∧
  ta.cursor_back.lines.length = ta.lines.length ∧
  ta.cursor_up.lines.length = ta.lines.length ∧
  ta.cursor_down.lines.length = ta.lines.length ∧
  ta.cursor_start.lines.length = ta.lines.length ∧
  ta.cursor_end.lines.length = ta.lines.length ∧
  (∀ s : Unit, (ta.setStyle s).lines.length = ta.lines.length) ∧
  (∀ b : Unit, (ta.setBlock b).lines.length = ta.lines.length) ∧
  ta.remove_block.lines.length = ta.lines.length ∧
  (∀ t : List Char, ∀ ta' : TextArea, ta.setTab t = some ta' →
    ta'.lines.length = ta.lines.length)

/-- Claim C10: for every state satisfying the invariant, insertNewline()
increases the number of lines by exactly 1; deleteChar() decreases it by
exactly 1 if and only if the cursor column is 0 and the row is positive; and
every other public operation (insertChar, insertText, insertTab, all cursor
moves, and the style/block/tab setters) leaves the number of lines
unchanged. -/
theorem C10_line_count (ta : TextArea) (h : ta.Inv) : LineCountSpec ta := by
  obtain ⟨h1, h2, h3, h4⟩ := h
  have hstr : ∀ s : List Char, (ta.insert_str s).lines.length = ta.lines.length := by
    intro s
    simp only [TextArea.insert_str, if_pos h4]
    rw [List.length_set]
  refine ⟨?_, ?_, ?_, hstr, ?_, ?_, ?_, ?_, ?_, rfl, rfl, fun _ => rfl, fun _ => rfl,
    rfl, ?_⟩
  · simp only [TextArea.insert_newline, if_pos h4]
    have hle : ta.cursor.1 + 1 ≤
        (ta.lines.set ta.cursor.1
          ((lineAt ta.lines ta.cursor.1).take ta.cursor.2 ++ [' '])).length := by
      rw [List.length_set]; omega
    rw [List.length_insertIdx _ _ hle, List.length_set]
  · by_cases hc : ta.cursor.2 = 0
    · by_cases hr : ta.cursor.1 > 0
      · simp only [TextArea.delete_char, if_pos hc, if_pos hr]
        rw [List.length_set, List.length_eraseIdx, if_pos h3]
        constructor
        · intro _
          exact ⟨hc, hr⟩
        · intro _
          omega
      · simp only [TextArea.delete_char, if_pos hc, if_neg hr]
        constructor
        · intro heq
          omega
        · rintro ⟨_, hr2⟩
          exact absurd hr2 hr
    · have hc1 : ta.cursor.2 - 1 < (lineAt ta.lines ta.cursor.1).length := by omega
      simp only [TextArea.delete_char, if_neg hc, if_pos hc1]
      rw [List.length_set]
      constructor
      · intro heq
        omega
      · rintro ⟨hc2, _⟩
        exact absurd hc2 hc
  · intro c
    rw [insert_char_eq_insert_str]
    exact hstr [c]
  · by_cases htab : ta.tab.length ≠ 0
    · simp only [TextArea.insert_tab, if_pos htab]
      exact hstr _
    · simp only [TextArea.insert_tab, if_neg htab]
  · by_cases hge : ta.cursor.2 + 1 ≥ (lineAt ta.lines ta.cursor.1).length
    · by_cases hlt : ta.cursor.1 + 1 < ta.lines.length
      · simp only [TextArea.cursor_forward, if_pos hge, if_pos hlt]
      · simp only [TextArea.cursor_forward, if_pos hge, if_neg hlt]
    · simp only [TextArea.cursor_forward, if_neg hge]
  · by_cases hc : ta.cursor.2 = 0
    · by_cases hr : ta.cursor.1 > 0
      · simp only [TextArea.cursor_back, if_pos hc, if_pos hr]
      · simp only [TextArea.cursor_back, if_pos hc, if_neg hr]
    · simp only [TextArea.cursor_back, if_neg hc]
  · by_cases hz : ta.cursor.1 = 0
    · simp only [TextArea.cursor_up, if_pos hz]
    · by_cases hle : (lineAt ta.lines (ta.cursor.1 - 1)).length ≤ ta.cursor.2
      · simp only [TextArea.cursor_up, if_neg hz, if_pos hle]
      · simp only [TextArea.cursor_up, if_neg hz, if_neg hle]
  · by_cases hge : ta.cursor.1 + 1 ≥ ta.lines.length
    · simp only [TextArea.cursor_down, if_pos hge]
    · by_cases hle : (lineAt ta.lines (ta.cursor.1 + 1)).length ≤ ta.cursor.2
      · simp only [TextArea.cursor_down, if_neg hge, if_pos hle]
      · simp only [TextArea.cursor_down, if_neg hge, if_neg hle]
  · intro t ta2 hset
    simp only [TextArea.setTab] at hset
    split at hset
    · cases hset
      rfl
    · cases hset

/-- Witness for claim C10: the default state satisfies the invariant and the
line-count specification. -/
theorem C10_line_count_witness :
    TextArea.default.Inv ∧ LineCountSpec TextArea.default :=
  ⟨by decide, C10_line_count TextArea.default (by decide)⟩
